import Mathlib

/-!
Verification development for the asky research agent.

Shallow embedding of the conversation engine (`asky/llm.py`), the session
manager (`asky/core/session_manager.py`), the slug generator
(`asky/core/utils.py`), the embedding serialization
(`asky/research/embeddings.py`), the research tools
(`asky/research/tools.py`, `asky/research/adapters.py`) and the push-data
resolver (`asky/push_data.py`).

Machine-level conventions: Python strings are Lean `String`s (ASCII inputs);
`None`-or-empty text fields are encoded as `Option` or as `""` following the
truthiness use at each site; Python dicts that the code iterates in insertion
order are association lists.
-/

/-- A tool call's `function` member: `{name, arguments: JSON-as-string}`. -/
structure ToolCallFn where
  name : String
  arguments : String
deriving DecidableEq, Repr

/-- A structured tool call `{id, function}` as produced by the LLM. -/
structure ToolCall where
  id : String
  function : ToolCallFn
deriving DecidableEq, Repr

/-- A chat message. `content = ""` models Python `None`/empty content (both
falsy at every use site embedded here). `tool_calls = some []` is kept
distinct from `none` because `msg.get("tool_calls")` distinguishes them
before truthiness is applied. -/
structure Msg where
  role : String
  content : String
  tool_calls : Option (List ToolCall) := none
  tool_call_id : Option String := none
deriving DecidableEq, Repr

/-- Serialization length of a tool-call list as produced by Python
`json.dumps` on the `tool_calls` payload, modelled for ASCII data: every
string is quoted with `"` and backslash/quote characters escaped; separators
`, ` and `: ` follow `json.dumps` defaults. Only its length feeds
`count_tokens`. -/
def jsonEscapeChar (c : Char) : List Char :=
  if c = '\\' then ['\\', '\\']
  else if c = '"' then ['\\', '"']
  else if c = '\n' then ['\\', 'n']
  else if c = '\t' then ['\\', 't']
  else if c = '\r' then ['\\', 'r']
  else [c]

def jsonQuote (s : String) : String :=
  "\"" ++ String.mk (s.toList.flatMap jsonEscapeChar) ++ "\""

def dumpToolCall (c : ToolCall) : String :=
  "\x7b\"id\": " ++ jsonQuote c.id ++ ", \"function\": \x7b\"name\": " ++
    jsonQuote c.function.name ++ ", \"arguments\": " ++
    jsonQuote c.function.arguments ++ "\x7d\x7d"

def dumpToolCalls (cs : List ToolCall) : String :=
  "[" ++ String.intercalate ", " (cs.map dumpToolCall) ++ "]"

/-- Character total accumulated by `count_tokens` (`asky/llm.py:93-104`):
content length when content is truthy, plus `len(json.dumps(tool_calls))`
when `tool_calls` is truthy (a nonempty list). -/
def msgChars (m : Msg) : Nat :=
  (if m.content = "" then 0 else m.content.length) +
    (match m.tool_calls with
     | some (c :: cs) => (dumpToolCalls (c :: cs)).length
     | _ => 0)

def charTotal : List Msg → Nat
  | [] => 0
  | m :: rest => msgChars m + charTotal rest

/-- `count_tokens` (`asky/llm.py:93-104`): naive chars // 4 estimate. -/
def count_tokens (ms : List Msg) : Nat :=
  charTotal ms / 4

/-! ## Session manager (`asky/core/session_manager.py`) -/

/-- One row of `session_messages`: `summary = ""` models a NULL/empty summary
(falsy at the compaction site). -/
structure SessionMessage where
  role : String
  content : String
  summary : String
  tokens : Nat
deriving DecidableEq, Repr

/-- The session state visible to `SessionManager`: its stored messages and
the optional `compacted_summary` column. -/
structure SessionState where
  messages : List SessionMessage
  compacted_summary : Option String := none
deriving DecidableEq, Repr

/-- Modelled from the spec: `SQLiteHistoryRepository.get_session_messages`
(module `asky.storage`, not present under src/) returns all of the session's
messages in insertion order (spec 4.7: `build_context_messages()` returns the
compacted summary "followed by all session messages, in order"). -/
def get_session_messages (s : SessionState) : List SessionMessage :=
  s.messages

/-- Modelled from the spec: `SQLiteHistoryRepository.compact_session`
(module `asky.storage`, not present under src/) stores the compacted content
on the session as `compacted_summary` (spec 4.7: "the result is stored on
the session as `compacted_summary`"); session messages are never deleted
implicitly (spec 3, Lifecycle). -/
def compact_session (s : SessionState) (content : String) : SessionState :=
  { s with compacted_summary := some content }

/-- Python `str.capitalize()`: first character uppercased, the rest
lowercased (ASCII model). -/
def pyCapitalize (s : String) : String :=
  match s.toList with
  | [] => ""
  | c :: rest => String.mk (c.toUpper :: rest.map Char.toLower)

/-- One line of `_compact_with_summaries`
(`asky/core/session_manager.py:397-415`): the message summary when truthy,
else the first 100 characters of the content followed by `...`. -/
def summaryPart (m : SessionMessage) : String :=
  if m.summary ≠ "" then pyCapitalize m.role ++ ": " ++ m.summary
  else pyCapitalize m.role ++ ": " ++ (m.content.take 100) ++ "..."

/-- `_compact_with_summaries` (`asky/core/session_manager.py:397-415`):
concatenates per-message summaries with newlines and stores the result via
`compact_session`. -/
def compact_with_summaries (s : SessionState) : SessionState :=
  compact_session s
    (String.intercalate "\n" ((get_session_messages s).map summaryPart))

def sessionToMsg (m : SessionMessage) : Msg :=
  { role := m.role, content := m.content }

/-- `build_context_messages` (`asky/core/session_manager.py:323-351`): when
`compacted_summary` is truthy, a synthetic user/assistant pair announcing the
summary is prepended; then all session messages follow in order. -/
def build_context_messages (s : SessionState) : List Msg :=
  (match s.compacted_summary with
   | some cs =>
     if cs = "" then []
     else
       [{ role := "user",
          content := "Previous conversation summary:\n" ++ cs },
        { role := "assistant",
          content := "I understand the context. How can I help further?" }]
   | none => []) ++ (get_session_messages s).map sessionToMsg

/-! ## Slug generator (`asky/core/utils.py`) -/

/-- `STOPWORDS` from `asky/core/utils.py:7-138` (duplicates kept as listed).
-/
def STOPWORDS : List String :=
  ["a", "an", "the", "is", "are", "was", "were", "be", "been", "being",
   "have", "has", "had", "do", "does", "did", "will", "would", "could",
   "should", "may", "might", "must", "shall", "can", "need", "dare",
   "ought", "used", "to", "of", "in", "for", "on", "with", "at", "by",
   "from", "as", "into", "through", "during", "before", "after", "above",
   "below", "between", "under", "again", "further", "then", "once", "here",
   "there", "when", "where", "why", "how", "all", "each", "few", "more",
   "most", "other", "some", "such", "no", "nor", "not", "only", "own",
   "same", "so", "than", "too", "very", "just", "also", "now", "what",
   "which", "who", "whom", "this", "that", "these", "those", "am", "and",
   "but", "if", "or", "because", "while", "although", "i", "me", "my",
   "myself", "we", "our", "ours", "ours", "ourselves", "you", "your",
   "yours", "yourself", "yourselves", "he", "him", "his", "himself", "she",
   "her", "hers", "herself", "it", "its", "itself", "they", "them",
   "their", "theirs", "themselves", "about", "tell", "no"]

/-- ASCII model of Python `str.lower()`. -/
def lowerAscii (s : String) : String :=
  String.mk (s.toList.map Char.toLower)

/-- `re.findall(r"[a-zA-Z]+", s)` via a single left-to-right scan; `acc`
holds the reversed current run of ASCII letters. -/
def findWordsAux : List Char → List Char → List String
  | [], acc => if acc = [] then [] else [String.mk acc.reverse]
  | c :: rest, acc =>
    if c.isAlpha then findWordsAux rest (c :: acc)
    else if acc = [] then findWordsAux rest []
    else String.mk acc.reverse :: findWordsAux rest []

/-- `re.findall(r"[a-zA-Z]+", s)`: maximal runs of ASCII letters. -/
def findWords (cs : List Char) : List String :=
  findWordsAux cs []

/-- The surviving key words of `generate_slug`: stopwords and words of length
at most 2 removed (`asky/core/utils.py:151-154`). -/
def key_words (text : String) : List String :=
  (findWords (lowerAscii text).toList).filter
    (fun w => !(STOPWORDS.contains w) && decide (2 < w.length))

/-- The fallback of `generate_slug` when no key word survives:
`re.sub(r"[^a-z0-9]", "", text.lower()[:20])`. -/
def sanitizedFallback (text : String) : String :=
  String.mk (((lowerAscii text).take 20).toList.filter
    (fun c => c.isLower || c.isDigit))

/-- `generate_slug` (`asky/core/utils.py:141-164`): `selected` is the first
`max_words` key words; empty input gives `"untitled"`; an empty selection
gives the sanitized fallback, or `"session"` when that is empty. -/
def generate_slug (text : String) (max_words : Nat := 5) : String :=
  if text = "" then "untitled"
  else if (key_words text).take max_words = [] then
    (if sanitizedFallback text = "" then "session" else sanitizedFallback text)
  else String.intercalate "_" ((key_words text).take max_words)

/-! ## Embedding serialization (`asky/research/embeddings.py:130-144`)

Vectors are modelled at the level of float32 bit patterns: a stored float is
its 32-bit word, and `struct.pack(f"{n}f", ...)` lays each word out as 4
bytes in the platform byte order (little-endian on every platform this
program supports). The claim's "floats exactly representable in float32"
hypothesis makes the float64 → float32 conversion the identity on values, so
the bit-pattern model captures the round trip exactly. -/

def wordToBytesLE (w : Nat) : List Nat :=
  [w % 256, w / 256 % 256, w / 65536 % 256, w / 16777216 % 256]

def bytesToWordLE (b0 b1 b2 b3 : Nat) : Nat :=
  b0 + 256 * b1 + 65536 * b2 + 16777216 * b3

/-- `EmbeddingClient.serialize_embedding`: packed float32 bytes. -/
def serialize_embedding (v : List Nat) : List Nat :=
  (v.map wordToBytesLE).flatten

def groupWordsLE : List Nat → List Nat
  | b0 :: b1 :: b2 :: b3 :: rest => bytesToWordLE b0 b1 b2 b3 :: groupWordsLE rest
  | _ => []

/-- `EmbeddingClient.deserialize_embedding`: empty data gives `[]`;
`struct.unpack(f"{count}f", data)` with `count = len(data) // 4` raises
`struct.error` unless `len(data) = 4 * count`, modelled as `none`. -/
def deserialize_embedding (data : List Nat) : Option (List Nat) :=
  if data = [] then some []
  else if data.length % 4 = 0 then some (groupWordsLE data)
  else none

/-! ## JSON (Python `json.loads`, an external collaborator of the core)

A strict RFC-8259 recursive-descent parser over the characters, used where
the source calls `json.loads`. Numbers keep their lexeme (only validity and
structure matter to the claims). Python additionally accepts
`NaN`, `Infinity` and `-Infinity`; no claim here involves them. -/

inductive Json where
  | null
  | bool (b : Bool)
  | num (lexeme : String)
  | str (s : String)
  | arr (xs : List Json)
  | obj (fields : List (String × Json))

def isHexChar (c : Char) : Bool :=
  c.isDigit || ('a' ≤ c && c ≤ 'f') || ('A' ≤ c && c ≤ 'F')

def hexVal (c : Char) : Nat :=
  if c.isDigit then c.toNat - 48
  else if 'a' ≤ c && c ≤ 'f' then c.toNat - 87
  else c.toNat - 55

def jsonWs (c : Char) : Bool :=
  c = ' ' || c = '\t' || c = '\n' || c = '\r'

def skipWs (cs : List Char) : List Char :=
  cs.dropWhile jsonWs

/-- Parse a JSON string body after the opening quote; returns the decoded
text and the rest after the closing quote. `\\uXXXX` escapes are decoded for
hex digits. -/
def parseStringBody (fuel : Nat) (cs : List Char) : Option (String × List Char) :=
  match fuel, cs with
  | 0, _ => none
  | _, [] => none
  | fuel + 1, c :: rest =>
    if c = '"' then some ("", rest)
    else if c = '\\' then
      match rest with
      | [] => none
      | e :: rest2 =>
        let dec : Option (List Char × List Char) :=
          if e = '"' then some (['"'], rest2)
          else if e = '\\' then some (['\\'], rest2)
          else if e = '/' then some (['/'], rest2)
          else if e = 'b' then some (['\x08'], rest2)
          else if e = 'f' then some (['\x0c'], rest2)
          else if e = 'n' then some (['\n'], rest2)
          else if e = 'r' then some (['\r'], rest2)
          else if e = 't' then some (['\t'], rest2)
          else if e = 'u' then
            match rest2 with
            | h1 :: h2 :: h3 :: h4 :: rest3 =>
              if isHexChar h1 && isHexChar h2 && isHexChar h3 && isHexChar h4 then
                let v := 4096 * hexVal h1 + 256 * hexVal h2 + 16 * hexVal h3 + hexVal h4
                some ([Char.ofNat v], rest3)
              else none
            | _ => none
          else none
        match dec with
        | none => none
        | some (out, rest3) =>
          match parseStringBody fuel rest3 with
          | none => none
          | some (s, rest4) => some (String.mk out ++ s, rest4)
    else if c.toNat < 32 then none
    else
      match parseStringBody fuel rest with
      | none => none
      | some (s, rest2) => some (String.mk [c] ++ s, rest2)

/-- Parse a JSON number starting at `cs`; returns its lexeme and the rest. -/
def parseNumber (cs : List Char) : Option (String × List Char) :=
  let (neg, cs1) :=
    match cs with
    | '-' :: rest => (['-'], rest)
    | _ => (([] : List Char), cs)
  let intPart : Option (List Char × List Char) :=
    match cs1 with
    | '0' :: rest => some (['0'], rest)
    | c :: rest =>
      if c.isDigit && c ≠ '0' then
        some (c :: rest.takeWhile Char.isDigit, rest.dropWhile Char.isDigit)
      else none
    | [] => none
  match intPart with
  | none => none
  | some (ip, cs2) =>
    let (fp, cs3) :=
      match cs2 with
      | '.' :: d :: rest =>
        if d.isDigit then
          ('.' :: d :: rest.takeWhile Char.isDigit, rest.dropWhile Char.isDigit)
        else (([] : List Char), cs2)
      | _ => (([] : List Char), cs2)
    let (ep, cs4) :=
      match cs3 with
      | e :: sgn :: d :: rest =>
        if (e = 'e' || e = 'E') && (sgn = '+' || sgn = '-') && d.isDigit then
          (e :: sgn :: d :: rest.takeWhile Char.isDigit, rest.dropWhile Char.isDigit)
        else
          match cs3 with
          | e2 :: d2 :: rest2 =>
            if (e2 = 'e' || e2 = 'E') && d2.isDigit then
              (e2 :: d2 :: rest2.takeWhile Char.isDigit, rest2.dropWhile Char.isDigit)
            else (([] : List Char), cs3)
          | _ => (([] : List Char), cs3)
      | e :: d :: rest =>
        if (e = 'e' || e = 'E') && d.isDigit then
          (e :: d :: rest.takeWhile Char.isDigit, rest.dropWhile Char.isDigit)
        else (([] : List Char), cs3)
      | _ => (([] : List Char), cs3)
    some (String.mk (neg ++ ip ++ fp ++ ep), cs4)

def startsWithChars : List Char → List Char → Bool
  | [], _ => true
  | _ :: _, [] => false
  | p :: ps, c :: cs => p = c && startsWithChars ps cs

/-- Model of Python `str.startswith` over the characters. -/
def strStartsWith (s p : String) : Bool :=
  startsWithChars p.toList s.toList

/-- Model of Python `str.endswith` over the characters. -/
def strEndsWith (s p : String) : Bool :=
  startsWithChars p.toList.reverse s.toList.reverse

mutual

def parseValue (fuel : Nat) (cs : List Char) : Option (Json × List Char) :=
  match fuel with
  | 0 => none
  | fuel + 1 =>
    let cs := skipWs cs
    match cs with
    | [] => none
    | c :: rest =>
      if c = '"' then
        match parseStringBody (rest.length + 1) rest with
        | none => none
        | some (s, rest2) => some (.str s, rest2)
      else if c = '\x7b' then parseObject fuel rest true
      else if c = '[' then parseArray fuel rest true
      else if startsWithChars "true".toList cs then some (.bool true, cs.drop 4)
      else if startsWithChars "false".toList cs then some (.bool false, cs.drop 5)
      else if startsWithChars "null".toList cs then some (.null, cs.drop 4)
      else
        match parseNumber cs with
        | none => none
        | some (lex, rest2) => some (.num lex, rest2)

/-- Parse object members after `{`; `first` is true before any member. -/
def parseObject (fuel : Nat) (cs : List Char) (first : Bool) :
    Option (Json × List Char) :=
  match fuel with
  | 0 => none
  | fuel + 1 =>
    let cs := skipWs cs
    match cs with
    | [] => none
    | c :: rest =>
      if c = '\x7d' && first then some (.obj [], rest)
      else
        match parseObjectRest fuel cs with
        | none => none
        | some (fields, rest2) => some (.obj fields, rest2)

def parseObjectRest (fuel : Nat) (cs : List Char) :
    Option (List (String × Json) × List Char) :=
  match fuel with
  | 0 => none
  | fuel + 1 =>
    match skipWs cs with
    | '"' :: rest =>
      match parseStringBody (rest.length + 1) rest with
      | none => none
      | some (key, rest2) =>
        match skipWs rest2 with
        | ':' :: rest3 =>
          match parseValue fuel rest3 with
          | none => none
          | some (v, rest4) =>
            match skipWs rest4 with
            | ',' :: rest5 =>
              match parseObjectRest fuel rest5 with
              | none => none
              | some (fields, rest6) => some ((key, v) :: fields, rest6)
            | '\x7d' :: rest5 => some ([(key, v)], rest5)
            | _ => none
        | _ => none
    | _ => none

def parseArray (fuel : Nat) (cs : List Char) (first : Bool) :
    Option (Json × List Char) :=
  match fuel with
  | 0 => none
  | fuel + 1 =>
    let cs := skipWs cs
    match cs with
    | [] => none
    | c :: rest =>
      if c = ']' && first then some (.arr [], rest)
      else
        match parseArrayRest fuel cs with
        | none => none
        | some (xs, rest2) => some (.arr xs, rest2)

def parseArrayRest (fuel : Nat) (cs : List Char) :
    Option (List Json × List Char) :=
  match fuel with
  | 0 => none
  | fuel + 1 =>
    match parseValue fuel cs with
    | none => none
    | some (v, rest) =>
      match skipWs rest with
      | ',' :: rest2 =>
        match parseArrayRest fuel rest2 with
        | none => none
        | some (xs, rest3) => some (v :: xs, rest3)
      | ']' :: rest2 => some ([v], rest2)
      | _ => none

end

/-- `json.loads`: the whole input must be a single JSON value surrounded by
optional whitespace. -/
def Json.parse (s : String) : Option Json :=
  let cs := s.toList
  match parseValue (cs.length + 1) cs with
  | none => none
  | some (v, rest) => if skipWs rest = [] then some v else none

/-! ## Tool registry dispatch (`asky/llm.py:132-169`) -/

/-- An executor: receives the decoded arguments and either returns a result
object or raises (`Except.error` carries `str(e)`). The `summarize` /
`usage_tracker` keyword plumbing chosen by `inspect.signature` happens
inside the same `try` block and does not affect the dispatch protocol
settled here. -/
def errObj (s : String) : Json :=
  .obj [("error", .str s)]

/-- The argument-decoding step of `dispatch`:
`json.loads(args_str) if args_str else {}` — an empty (falsy) string yields
`{}` without a JSON parse; `json.JSONDecodeError` is `none`. -/
def dispatch_args (arguments : String) : Option Json :=
  if arguments = "" then some (.obj [])
  else Json.parse arguments

/-- `ToolRegistry.dispatch`: the `function` member's `name` and `arguments`.
`arguments` defaults to `"{}"` via `func_call.get("arguments", "{}")`. -/
def dispatch (executors : List (String × (Json → Except String Json)))
    (name : String) (arguments : String) : Json :=
  match dispatch_args arguments with
  | none => errObj ("Invalid JSON arguments for tool: " ++ name)
  | some a =>
    match executors.lookup name with
    | none => errObj ("Unknown tool: " ++ name)
    | some ex =>
      match ex a with
      | .ok r => r
      | .error e => errObj ("Tool execution failed: " ++ e)

/-! ## Textual tool-call fallback (`asky/llm.py:62-77`, `393-401`) -/

def isWordChar (c : Char) : Bool :=
  c.isAlphanum || c = '_'

/-- `re.search(r"to=functions\.([a-zA-Z0-9_]+)", text)`: the captured name of
the first position where the whole pattern (marker plus at least one word
character) matches. -/
def findFunctionsName (cs : List Char) : Option String :=
  match cs with
  | [] => none
  | _ :: rest =>
    if startsWithChars "to=functions.".toList cs then
      let run := (cs.drop 13).takeWhile isWordChar
      if run = [] then findFunctionsName rest else some (String.mk run)
    else findFunctionsName rest

/-- `re.search(r"(\{.*\})", text, re.S)` with a greedy `.*`: the match spans
the first opening brace through the last closing brace (and exists exactly
when a closing brace occurs after the first opening brace). -/
def braceBlob (text : String) : Option String :=
  let cs := text.toList
  match cs.findIdx? (fun c => c = '\x7b') with
  | none => none
  | some i =>
    match (cs.length - 1 - ·) <$> cs.reverse.findIdx? (fun c => c = '\x7d') with
    | none => none
    | some j =>
      if i < j then some (String.mk ((cs.drop i).take (j - i + 1))) else none

/-- `parse_textual_tool_call` (`asky/llm.py:62-77`). -/
def parse_textual_tool_call (text : String) : Option ToolCallFn :=
  if text = "" then none
  else
    match findFunctionsName text.toList with
    | none => none
    | some name =>
      match braceBlob text with
      | none => none
      | some blob =>
        if (Json.parse blob).isSome then some ⟨name, blob⟩ else none

/-- Non-overlapping count of `re` matches of
`to=functions\.([a-zA-Z0-9_]+)` in the text (what `re.findall` would
return), used to state the multiplicity side of claim C9. -/
def count_textual_matches_aux : Nat → List Char → Nat
  | 0, _ => 0
  | _, [] => 0
  | fuel + 1, c :: rest =>
    if startsWithChars "to=functions.".toList (c :: rest) then
      let run := ((c :: rest).drop 13).takeWhile isWordChar
      if run = [] then count_textual_matches_aux fuel rest
      else
        1 + count_textual_matches_aux fuel ((c :: rest).drop (13 + run.length))
    else count_textual_matches_aux fuel rest

def count_textual_matches (cs : List Char) : Nat :=
  count_textual_matches_aux cs.length cs

/-- `extract_calls` (`asky/llm.py:393-401`): `if tc:` keeps a nonempty
structured list; otherwise the textual fallback runs on the content. -/
def extract_calls (msg : Msg) (turn : Nat) : List ToolCall :=
  match msg.tool_calls with
  | some (c :: cs) => c :: cs
  | _ =>
    match parse_textual_tool_call msg.content with
    | some fn => [⟨"textual_call_" ++ toString turn, fn⟩]
    | none => []

/-! ## Chat-completion retry loop (`asky/llm.py:339-390`) -/

/-- One network attempt's outcome, indexed by attempt number: the POST
either succeeds with an assistant message, raises `HTTPError` (from
`raise_for_status`) carrying the status and the `Retry-After` header, or
raises another `RequestException` (timeout, connection error). -/
inductive HttpOutcome where
  | success (msg : String)
  | httpError (status : Nat) (retryAfter : Option String)
  | requestError
deriving DecidableEq, Repr

inductive LlmError where
  | http (status : Nat) (retryAfter : Option String)
  | network
  | exhausted
deriving DecidableEq, Repr

/-- Result of `get_llm_msg` together with the `time.sleep` waits performed,
in order. -/
inductive LlmResult where
  | ok (msg : String) (waits : List Nat)
  | raised (e : LlmError) (waits : List Nat)
deriving DecidableEq, Repr

def digitsToNat (ds : List Char) : Nat :=
  ds.foldl (fun acc c => 10 * acc + (c.toNat - 48)) 0

/-- `int(float(retry_after))` for unsigned decimal literals (`"7"`, `"5.9"`,
`"5."`, `".5"`); other strings (including the empty falsy header, signs,
exponents) take the `ValueError`/absent-header path. -/
def parseRetryAfterFloor (s : String) : Option Nat :=
  let cs := s.toList
  let a := cs.takeWhile (fun c => c ≠ '.')
  match cs.dropWhile (fun c => c ≠ '.') with
  | [] => if a ≠ [] && a.all Char.isDigit then some (digitsToNat a) else none
  | _ :: b =>
    if b.all (fun c => c ≠ '.') then
      if (a ≠ [] || b ≠ []) && a.all Char.isDigit && b.all Char.isDigit then
        some (digitsToNat a)
      else none
    else none

/-- The `for attempt in range(max_retries)` loop of `get_llm_msg`
(`asky/llm.py:339-390`) with `max_retries = 10`, `backoff = 2`,
`max_backoff = 60`. `fuel` is `max_retries - attempt`, so the initial call
has `fuel = 10`, `attempt = 0`. A 429 with a parseable `Retry-After` waits
its floor and keeps `backoff`; a 429 without one (or with an unparseable
one) waits `backoff` and doubles it capped at 60; any other `HTTPError`
status re-raises at once; other request errors wait `backoff` and double
it. The final attempt re-raises instead of waiting. -/
def retryLoop (oracle : Nat → HttpOutcome) :
    Nat → Nat → Nat → List Nat → LlmResult
  | 0, _, _, waits => .raised .exhausted waits
  | fuel + 1, attempt, backoff, waits =>
    match oracle attempt with
    | .success m => .ok m waits
    | .httpError status retryAfter =>
      if status = 429 then
        if attempt < 9 then
          let parsed :=
            match retryAfter with
            | some s => if s = "" then none else parseRetryAfterFloor s
            | none => none
          match parsed with
          | some w => retryLoop oracle fuel (attempt + 1) backoff (waits ++ [w])
          | none =>
            retryLoop oracle fuel (attempt + 1) (min (backoff * 2) 60)
              (waits ++ [backoff])
        else .raised (.http status retryAfter) waits
      else .raised (.http status retryAfter) waits
    | .requestError =>
      if attempt < 9 then
        retryLoop oracle fuel (attempt + 1) (min (backoff * 2) 60)
          (waits ++ [backoff])
      else .raised .network waits

/-- `get_llm_msg`'s network loop: 10 attempts, backoff starting at 2. -/
def get_llm_msg_retry (oracle : Nat → HttpOutcome) : LlmResult :=
  retryLoop oracle 10 0 2 []

/-! ## Conversation engine loop (`asky/llm.py:193-276`)

The LLM is modelled as a turn-indexed response oracle and the tool registry
as a serialized-result function (its own protocol is settled separately via
`dispatch`); both are external inputs of one `run`. `MAX_TURNS` and
`context_size` are configuration values and appear as parameters. -/

/-- Two-digit zero-padded rendering. -/
def twoDigits (n : Nat) : String :=
  if n < 10 then "0" ++ toString n else toString n

/-- The `Context Used` percentage of the status message.
`f"{total_tokens / context_size * 100:.2f}"` renders a float with two
decimals; modelled in fixed point as the floor of the percentage in
hundredths (the claims settled here do not depend on the float's final-digit
rounding). -/
def percentStr (tokens context_size : Nat) : String :=
  let h := tokens * 10000 / context_size
  toString (h / 100) ++ "." ++ twoDigits (h % 100)

/-- The status suffix appended to the system prompt each turn
(`asky/llm.py:215-220`); note the missing separator between the
`Context Used` and `Turns Remaining` items, as in the source. -/
def status_msg (tokens context_size turns_left max_turns : Nat) : String :=
  "\n\n[SYSTEM UPDATE]:\n- Context Used: " ++ percentStr tokens context_size ++
    "%" ++ "- Turns Remaining: " ++ toString turns_left ++ " (out of " ++
    toString max_turns ++ ")\nPlease manage your context usage efficiently."

/-- `messages[0]["content"] = original_system_prompt + status_msg` guarded by
`messages and messages[0]["role"] == "system"`. -/
def update_system (orig suffix : String) (msgs : List Msg) : List Msg :=
  match msgs with
  | [] => []
  | m :: rest =>
    if m.role = "system" then { m with content := orig ++ suffix } :: rest
    else m :: rest

/-- The `tool` message appended per dispatched call
(`asky/llm.py:257-263`): `content` is the JSON-serialized dispatch result,
supplied here by the `dispatchResult` function. -/
def tool_result_msg (c : ToolCall) (resultContent : String) : Msg :=
  { role := "tool", content := resultContent, tool_call_id := some c.id }

/-- A per-turn snapshot of `ConversationEngine.run`: the turn number, the
token count computed at its start, and the message list right after the
status-suffix update (the state sent to the LLM). -/
structure TraceEntry where
  turn : Nat
  tokens : Nat
  msgs : List Msg
deriving DecidableEq, Repr

/-- The `while turn < MAX_TURNS` loop of `ConversationEngine.run`
(`asky/llm.py:204-264`). `turn` is the already-incremented counter of the
current iteration and `fuel = max_turns - turn + 1` counts the iterations
still allowed. Returns the per-turn snapshots and the final message list. -/
def engine_loop (oracle : Nat → Msg) (dispatchResult : Nat → ToolCall → String)
    (max_turns context_size : Nat) :
    Nat → Nat → String → List Msg → List TraceEntry × List Msg
  | 0, _, _, msgs => ([], msgs)
  | fuel + 1, turn, orig, msgs =>
    let tokens := count_tokens msgs
    let suffix := status_msg tokens context_size (max_turns - turn + 1) max_turns
    let msgs1 := update_system orig suffix msgs
    let resp := oracle turn
    let calls := extract_calls resp turn
    if calls = [] then ([⟨turn, tokens, msgs1⟩], msgs1)
    else
      let msgs2 := msgs1 ++ resp ::
        calls.map (fun c => tool_result_msg c (dispatchResult turn c))
      let next := engine_loop oracle dispatchResult max_turns context_size
        fuel (turn + 1) orig msgs2
      (⟨turn, tokens, msgs1⟩ :: next.1, next.2)

/-- `original_system_prompt` captured once before the loop
(`asky/llm.py:197-201`). -/
def original_system_prompt (msgs : List Msg) : String :=
  match msgs with
  | m :: _ => if m.role = "system" then m.content else ""
  | [] => ""

/-- `ConversationEngine.run` on an initial message list. -/
def engine_run (oracle : Nat → Msg) (dispatchResult : Nat → ToolCall → String)
    (max_turns context_size : Nat) (init : List Msg) :
    List TraceEntry × List Msg :=
  engine_loop oracle dispatchResult max_turns context_size max_turns 1
    (original_system_prompt init) init

/-- The `tool`-answer check of the transcript invariant: the first
`calls.length` messages answer the calls in order (`role = "tool"` and
matching `tool_call_id`). -/
def tool_answers : List ToolCall → List Msg → Bool
  | [], _ => true
  | _ :: _, [] => false
  | c :: cs, m :: rest =>
    (m.role = "tool" && m.tool_call_id = some c.id) && tool_answers cs rest

/-- The transcript invariant of claim C7: every message carrying a
(structured) `tool_calls` list of length k is immediately followed by k
matching `tool` messages, in order. -/
def wf_transcript : List Msg → Bool
  | [] => true
  | m :: rest =>
    match m.tool_calls with
    | some tcs =>
      tool_answers tcs rest && wf_transcript (rest.drop tcs.length)
    | none => wf_transcript rest
termination_by ms => ms.length
decreasing_by
  · have := List.length_drop tcs.length rest
    simp_all
    omega
  · simp

/-! ## Research tools: `get_full_content` (`asky/research/tools.py:478-511`)
and the source-adapter layer (`asky/research/adapters.py`) -/

/-- `_sanitize_url`: backslashes removed. -/
def sanitize_url (url : String) : String :=
  String.mk (url.toList.filter (fun c => c ≠ '\\'))

/-- A `url_cache` row as consumed by `execute_get_full_content`. -/
structure CachedRow where
  title : String
  content : String
deriving DecidableEq, Repr

inductive GfcResult where
  | failure (error : String)
  | success (title content : String) (content_length : Nat)
deriving DecidableEq, Repr

/-- The per-URL body of `execute_get_full_content`'s loop
(`asky/research/tools.py:491-509`): a cache miss yields the not-cached
error — the configured source adapters are never consulted by this
function. -/
def gfc_row (cache : String → Option CachedRow) (url : String) : GfcResult :=
  match cache url with
  | none => .failure "Not cached. Use extract_links first to cache this URL."
  | some r =>
    if r.content = "" then .failure "Cached content is empty."
    else .success r.title r.content r.content.length

/-- `execute_get_full_content` (`asky/research/tools.py:478-511`). The
Python `list(set(...))` deduplication order is unspecified; it is modelled
as first-occurrence order, which the per-URL results do not depend on. -/
def execute_get_full_content (cache : String → Option CachedRow)
    (urls : List String) : Except String (List (String × GfcResult)) :=
  let us := ((urls.filter (fun u => u ≠ "")).map sanitize_url).dedup
  if us = [] then .error "No URLs provided."
  else .ok (us.map (fun u => (u, gfc_row cache u)))

/-- A configured research source adapter (`asky/research/adapters.py:19-27`);
`pfx` embeds the source's `prefix` field. -/
structure ResearchSourceAdapter where
  name : String
  pfx : String
  discover_tool : String
  read_tool : String
deriving DecidableEq, Repr

/-- `get_source_adapter` (`asky/research/adapters.py:73-81`) over the
enabled adapters sorted by decreasing prefix length: the first adapter whose
prefix starts the target. -/
def get_source_adapter (adapters : List ResearchSourceAdapter)
    (target : String) : Option ResearchSourceAdapter :=
  if target = "" then none
  else adapters.find? (fun a => strStartsWith target a.pfx)

/-- The tool-argument object `fetch_source_via_adapter` passes to the custom
tool (`asky/research/adapters.py:207-215`): `{target, max_links, operation}`
plus `query` when truthy. -/
structure AdapterToolArgs where
  target : String
  max_links : Nat
  operation : String
  query : Option String
deriving DecidableEq, Repr

/-- `fetch_source_via_adapter`'s choice of tool and arguments
(`asky/research/adapters.py:188-217`): `none` when no adapter matches;
otherwise the `read_tool` for the read operation (`discover_tool` for any
other operation) with `max_links` defaulting to 50. -/
def adapter_invocation (adapters : List ResearchSourceAdapter)
    (target : String) (query : Option String) (max_links : Option Nat)
    (operation : String) : Option (String × AdapterToolArgs) :=
  match get_source_adapter adapters target with
  | none => none
  | some a =>
    let limit := match max_links with
      | some n => if 0 < n then n else 50
      | none => 50
    let tool := if operation = "read" then a.read_tool else a.discover_tool
    some (tool, ⟨target, limit, operation,
      match query with
      | some q => if q = "" then none else some q
      | none => none⟩)

/-! ## Push data (`asky/push_data.py`) -/

def SPECIAL_VARIABLES : List String :=
  ["query", "answer", "timestamp", "model"]

/-- `_resolve_field_value` (`asky/push_data.py:18-67`): `_env` keys read the
named environment variable; `$\x7b...\x7d` placeholders resolve against the
special variables and then the dynamic arguments; anything else is the
literal value. `ValueError` is `Except.error`. -/
def resolve_field_value (env : String → Option String)
    (dynamic_args special_vars : List (String × String))
    (key value : String) : Except String String :=
  if strEndsWith key "_env" then
    match env value with
    | none =>
      .error ("Environment variable \x27" ++ value ++ "\x27 not found")
    | some v => .ok v
  else if strStartsWith value "$\x7b" && strEndsWith value "\x7d" then
    let p := (value.drop 2).dropRight 1
    if SPECIAL_VARIABLES.contains p then
      match special_vars.lookup p with
      | some v => .ok v
      | none => .error ("Special variable \x27" ++ p ++ "\x27 not available")
    else
      match dynamic_args.lookup p with
      | some v => .ok v
      | none => .error ("Missing required parameter: " ++ p)
  else .ok value

/-- `_resolve_headers` (`asky/push_data.py:70-97`): `_env` keys emit the
header under the key with the suffix stripped (`key[:-4]`) and the
environment variable's value; other keys pass through. -/
def resolve_headers (env : String → Option String) :
    List (String × String) → Except String (List (String × String))
  | [] => .ok []
  | (key, value) :: rest =>
    if strEndsWith key "_env" then
      match env value with
      | none =>
        .error ("Environment variable \x27" ++ value ++ "\x27 not found")
      | some v =>
        match resolve_headers env rest with
        | .error e => .error e
        | .ok hs => .ok ((key.dropRight 4, v) :: hs)
    else
      match resolve_headers env rest with
      | .error e => .error e
      | .ok hs => .ok ((key, value) :: hs)

/-- `_build_payload` (`asky/push_data.py:100-123`): every field key is kept
as-is (the `_env` suffix included) and paired with its resolved value. -/
def build_payload (env : String → Option String)
    (dynamic_args special_vars : List (String × String)) :
    List (String × String) → Except String (List (String × String))
  | [] => .ok []
  | (key, value) :: rest =>
    match resolve_field_value env dynamic_args special_vars key value with
    | .error e => .error e
    | .ok v =>
      match build_payload env dynamic_args special_vars rest with
      | .error e => .error e
      | .ok p => .ok ((key, v) :: p)

/-- Outcome of `execute_push_data` after endpoint/url/method validation
(`asky/push_data.py:179-208`): a resolution failure is returned as
`{"success": False, "error": ...}` before any request is made; otherwise
the request is issued with the resolved headers and payload. -/
inductive PushOutcome where
  | failed (error : String)
  | sent (headers payload : List (String × String))
deriving DecidableEq, Repr

/-- The header/payload resolution phase of `execute_push_data`. -/
def execute_push_data (env : String → Option String)
    (dynamic_args special_vars : List (String × String))
    (headers_config fields_config : List (String × String)) : PushOutcome :=
  match resolve_headers env headers_config with
  | .error e => .failed e
  | .ok hs =>
    match build_payload env dynamic_args special_vars fields_config with
    | .error e => .failed e
    | .ok p => .sent hs p

/-! ## Concrete instances used by counterexamples and witnesses -/

def c3_oracle : Nat → HttpOutcome :=
  fun n => if n = 0 then .httpError 500 none else .success "ok"

/-- The `time.sleep` waits recorded by a retry run. -/
def result_waits : LlmResult → List Nat
  | .ok _ w => w
  | .raised _ w => w

def c1_session : SessionState :=
  ⟨[⟨"user", "abcdefgh", "", 2⟩], none⟩

def c9_msg : Msg :=
  { role := "assistant",
    content := "to=functions.a to=functions.b \x7b\"y\":1\x7d" }

/-- A concrete engine run: the model answers turn 1 with one structured tool
call and every later turn with a plain answer. -/
def w_oracle : Nat → Msg :=
  fun t =>
    if t = 1 then
      { role := "assistant", content := "",
        tool_calls := some [⟨"call_1", ⟨"get_date_time", "\x7b\x7d"⟩⟩] }
    else { role := "assistant", content := "done" }

def w_dr : Nat → ToolCall → String :=
  fun _ _ => "\x7b\"result\": \"ok\"\x7d"

def w_init : List Msg :=
  [{ role := "system", content := "S" }, { role := "user", content := "hi" }]

/-! # Theorems -/

/-! ## C8: embedding serialization round trip -/

theorem groupWordsLE_cons (w : Nat) (h : w < 4294967296) (rest : List Nat) :
    groupWordsLE (wordToBytesLE w ++ rest) = w :: groupWordsLE rest := by
  simp only [wordToBytesLE, List.cons_append, List.nil_append, groupWordsLE,
    bytesToWordLE]
  congr 1
  omega

theorem serialize_embedding_nil : serialize_embedding [] = [] := rfl

theorem serialize_embedding_cons (w : Nat) (v : List Nat) :
    serialize_embedding (w :: v) = wordToBytesLE w ++ serialize_embedding v := by
  simp [serialize_embedding]

theorem serialize_embedding_length (v : List Nat) :
    (serialize_embedding v).length = 4 * v.length := by
  induction v with
  | nil => rfl
  | cons w v ih =>
    rw [serialize_embedding_cons, List.length_append, ih]
    simp [wordToBytesLE]
    ring

theorem groupWordsLE_serialize (v : List Nat) (h : ∀ w ∈ v, w < 4294967296) :
    groupWordsLE (serialize_embedding v) = v := by
  induction v with
  | nil => rfl
  | cons w v ih =>
    rw [serialize_embedding_cons, groupWordsLE_cons w (h w (by simp))]
    rw [ih (fun x hx => h x (by simp [hx]))]

/-- Claim C8: for every float32 vector (modelled by its 32-bit words),
`deserialize_embedding (serialize_embedding v) = v` bit-exactly, and the
serialized form is a packed byte string of length `4 * len(v)` (each byte
below 256, words laid out little-endian). -/
theorem serialize_embedding_roundtrip (v : List Nat)
    (h : ∀ w ∈ v, w < 4294967296) :
    deserialize_embedding (serialize_embedding v) = some v ∧
    (serialize_embedding v).length = 4 * v.length ∧
    ∀ b ∈ serialize_embedding v, b < 256 := by
  refine ⟨?_, serialize_embedding_length v, ?_⟩
  · rcases v with _ | ⟨w, v⟩
    · rfl
    · have hlen := serialize_embedding_length (w :: v)
      have hne : serialize_embedding (w :: v) ≠ [] := by
        intro hc
        rw [hc] at hlen
        simp at hlen
      unfold deserialize_embedding
      rw [if_neg hne, if_pos (by rw [hlen]; omega),
        groupWordsLE_serialize _ h]
  · intro b hb
    induction v with
    | nil => simp [serialize_embedding] at hb
    | cons w v ih =>
      rw [serialize_embedding_cons] at hb
      rcases List.mem_append.mp hb with hb1 | hb2
      · have hw := h w (by simp)
        simp [wordToBytesLE] at hb1
        rcases hb1 with h1 | h1 | h1 | h1 <;> omega
      · exact ih (fun x hx => h x (by simp [hx])) hb2

/-- Witness for C8 at a concrete vector. -/
theorem serialize_embedding_roundtrip_witness :
    (∀ w ∈ [1, 4294967295, 305419896], w < 4294967296) ∧
    deserialize_embedding (serialize_embedding [1, 4294967295, 305419896]) =
      some [1, 4294967295, 305419896] := by
  refine ⟨by decide, ?_⟩
  exact (serialize_embedding_roundtrip [1, 4294967295, 305419896]
    (by decide)).1

/-! ## C5: slug generator -/

/-- Counterexample to claim C5: `"the"` consists only of stopwords, yet
`generate_slug` returns the sanitized 20-character fallback `"the"`, not
`"session"` — `"session"` appears only when the sanitized fallback is
empty. -/
theorem generate_slug_stopword_cex :
    generate_slug "the" 5 = "the" ∧ generate_slug "the" 5 ≠ "session" := by
  constructor
  · rfl
  · decide

/-- Claim C5 (amended): `generate_slug` removes stopwords and words of
length ≤ 2, joins at most `max_words` surviving tokens with `_`, and
returns `"untitled"` for empty input; for nonempty input with no surviving
token it returns the input's first 20 characters lowercased with
non-alphanumerics removed, falling back to `"session"` only when that
sanitized form is empty. -/
theorem generate_slug_amended (text : String) (n : Nat) :
    (text = "" → generate_slug text n = "untitled") ∧
    (text ≠ "" → (key_words text).take n ≠ [] →
      generate_slug text n = String.intercalate "_" ((key_words text).take n) ∧
      ((key_words text).take n).length ≤ n ∧
      ∀ w ∈ (key_words text).take n,
        ¬ w ∈ STOPWORDS ∧ 2 < w.length) ∧
    (text ≠ "" → (key_words text).take n = [] →
      generate_slug text n =
        (if sanitizedFallback text = "" then "session"
         else sanitizedFallback text)) := by
  refine ⟨fun h => by simp [generate_slug, h], fun h1 h2 => ?_, fun h1 h2 => ?_⟩
  · refine ⟨by rw [generate_slug, if_neg h1, if_neg h2], ?_, ?_⟩
    · exact (List.length_take n _).le.trans (Nat.min_le_left n _)
    · intro w hw
      have hw' : w ∈ key_words text := List.take_subset n _ hw
      rcases List.mem_filter.mp hw' with ⟨-, hp⟩
      simp only [Bool.and_eq_true, Bool.not_eq_true', decide_eq_true_eq,
        List.contains, List.elem_eq_mem, decide_eq_false_iff_not] at hp
      exact hp
  · rw [generate_slug, if_neg h1, if_pos h2]

/-- Witness for C5 at the spec's example input. -/
theorem generate_slug_amended_witness :
    ("what is the meaning of life" : String) ≠ "" ∧
    (key_words "what is the meaning of life").take 5 ≠ [] ∧
    generate_slug "what is the meaning of life" 5 =
      String.intercalate "_"
        ((key_words "what is the meaning of life").take 5) := by
  refine ⟨by decide, by decide, ?_⟩
  exact ((generate_slug_amended "what is the meaning of life" 5).2.1
    (by decide) (by decide)).1

/-! ## C4: tool dispatch protocol -/

/-- Claim C4: `ToolRegistry.dispatch` always returns a result object and
never raises. Unparseable argument strings yield the invalid-JSON error —
regardless of the registry, so the JSON check precedes the executor lookup;
a missing executor yields the unknown-tool error; an executor exception is
caught and wrapped as a tool-execution failure; and the spec's
`dispatch({name:"x", arguments:"{"})` example yields the invalid-JSON error
object. -/
theorem dispatch_protocol :
    (∀ (ex : List (String × (Json → Except String Json))) (name args : String),
      dispatch_args args = none →
      dispatch ex name args =
        errObj ("Invalid JSON arguments for tool: " ++ name)) ∧
    (∀ (ex : List (String × (Json → Except String Json))) (name args : String)
      (a : Json), dispatch_args args = some a → ex.lookup name = none →
      dispatch ex name args = errObj ("Unknown tool: " ++ name)) ∧
    (∀ (ex : List (String × (Json → Except String Json))) (name args : String)
      (a : Json) (f : Json → Except String Json) (e : String),
      dispatch_args args = some a → ex.lookup name = some f →
      f a = .error e →
      dispatch ex name args = errObj ("Tool execution failed: " ++ e)) ∧
    (∀ (ex : List (String × (Json → Except String Json))) (name args : String)
      (a r : Json) (f : Json → Except String Json),
      dispatch_args args = some a → ex.lookup name = some f → f a = .ok r →
      dispatch ex name args = r) ∧
    dispatch [] "x" "\x7b" = errObj ("Invalid JSON arguments for tool: x") := by
  refine ⟨?_, ?_, ?_, ?_, rfl⟩
  · intro ex name args h
    simp [dispatch, h]
  · intro ex name args a h hl
    simp [dispatch, h, hl]
  · intro ex name args a f e h hl he
    simp [dispatch, h, hl, he]
  · intro ex name args a r f h hl hf
    simp [dispatch, h, hl, hf]

/-- Witness for C4: the spec's malformed-arguments example, the unknown-tool
case and the wrapped executor failure at concrete inputs. -/
theorem dispatch_protocol_witness :
    dispatch_args "\x7b" = none ∧
    dispatch [] "x" "\x7b" = errObj ("Invalid JSON arguments for tool: x") ∧
    dispatch [] "y" "\x7b\x7d" = errObj ("Unknown tool: y") ∧
    dispatch [("y", fun _ => .error "boom")] "y" "\x7b\x7d" =
      errObj ("Tool execution failed: boom") := by
  refine ⟨rfl, dispatch_protocol.1 [] "x" "\x7b" rfl, ?_, ?_⟩
  · exact dispatch_protocol.2.1 [] "y" "\x7b\x7d" (Json.obj []) rfl rfl
  · exact dispatch_protocol.2.2.1 [("y", fun _ => .error "boom")] "y"
      "\x7b\x7d" (Json.obj []) (fun _ => .error "boom") "boom" rfl rfl rfl

/-! ## C3: chat-completion retry policy -/

/-- Counterexample to claim C3: an HTTP 500 on the first attempt is
re-raised immediately with no retry and no waiting, although the very next
attempt would have succeeded — 5xx responses are not retried by
`get_llm_msg`; only 429 and non-HTTP request errors are. -/
theorem get_llm_msg_5xx_cex :
    get_llm_msg_retry c3_oracle = .raised (.http 500 none) [] ∧
    c3_oracle 1 = .success "ok" := by
  exact ⟨rfl, rfl⟩

theorem retryLoop_waits_le (oracle : Nat → HttpOutcome) :
    ∀ (fuel attempt backoff : Nat) (waits : List Nat),
      (result_waits (retryLoop oracle fuel attempt backoff waits)).length ≤
        waits.length + (9 - attempt) := by
  intro fuel
  induction fuel with
  | zero => intro attempt backoff waits; simp [retryLoop, result_waits]
  | succ fuel ih =>
    intro attempt backoff waits
    rw [retryLoop]
    rcases oracle attempt with m | ⟨status, ra⟩ | _
    · simp [result_waits]
    · dsimp only
      by_cases h429 : status = 429
      · rw [if_pos h429]
        by_cases hatt : attempt < 9
        · rw [if_pos hatt]
          rcases hra : (match ra with
            | some s => if s = "" then none else parseRetryAfterFloor s
            | none => none) with - | w
          · rw [hra]
            have := ih (attempt + 1) (min (backoff * 2) 60) (waits ++ [backoff])
            simp only [List.length_append, List.length_cons,
              List.length_nil] at this ⊢
            omega
          · rw [hra]
            have := ih (attempt + 1) backoff (waits ++ [w])
            simp only [List.length_append, List.length_cons,
              List.length_nil] at this ⊢
            omega
        · rw [if_neg hatt]
          simp [result_waits]
      · rw [if_neg h429]
        simp [result_waits]
    · dsimp only
      by_cases hatt : attempt < 9
      · rw [if_pos hatt]
        have := ih (attempt + 1) (min (backoff * 2) 60) (waits ++ [backoff])
        simp only [List.length_append, List.length_cons,
          List.length_nil] at this ⊢
        omega
      · rw [if_neg hatt]
        simp [result_waits]

/-- Claim C3 (amended): `get_llm_msg` retries only HTTP 429, timeouts and
connection errors, for at most 10 attempts in total; on 429 it waits the
floor of the `Retry-After` header when present and parseable, else follows
the exponential schedule 2, 4, 8, 16, 32 capped at 60 seconds; the same
schedule covers timeouts/connection errors; any other HTTP status —
including every 5xx — is re-raised immediately without a retry. -/
theorem get_llm_msg_retry_amended :
    (∀ (oracle : Nat → HttpOutcome) (status : Nat) (ra : Option String),
      status ≠ 429 → oracle 0 = .httpError status ra →
      get_llm_msg_retry oracle = .raised (.http status ra) []) ∧
    get_llm_msg_retry (fun _ => .requestError) =
      .raised .network [2, 4, 8, 16, 32, 60, 60, 60, 60] ∧
    get_llm_msg_retry (fun _ => .httpError 429 none) =
      .raised (.http 429 none) [2, 4, 8, 16, 32, 60, 60, 60, 60] ∧
    (∀ m, get_llm_msg_retry
        (fun n => if n = 0 then .httpError 429 (some "7") else .success m) =
      .ok m [7]) ∧
    get_llm_msg_retry
        (fun n => if n = 0 then .httpError 429 (some "5.9") else .success "m") =
      .ok "m" [5] ∧
    (∀ oracle, (result_waits (get_llm_msg_retry oracle)).length ≤ 9) := by
  refine ⟨?_, rfl, rfl, fun m => rfl, rfl, ?_⟩
  · intro oracle status ra h hO
    show retryLoop oracle (9 + 1) 0 2 [] = .raised (.http status ra) []
    rw [retryLoop, hO]
    simp [h]
  · intro oracle
    have := retryLoop_waits_le oracle 10 0 2 []
    simpa using this

/-- Witness for C3 (amended) at a concrete 404 oracle. -/
theorem get_llm_msg_retry_amended_witness :
    ((fun _ => HttpOutcome.httpError 404 none) 0 :
      HttpOutcome) = .httpError 404 none ∧
    get_llm_msg_retry (fun _ => .httpError 404 none) =
      .raised (.http 404 none) [] := by
  exact ⟨rfl, get_llm_msg_retry_amended.1 (fun _ => .httpError 404 none)
    404 none (by decide) rfl⟩

/-! ## C1: context size across compaction -/

set_option maxRecDepth 4000 in
/-- Counterexample to claim C1: compacting a one-message session makes
`build_context_messages` LONGER, not shorter — the synthetic summary pair is
prepended while all session messages (not only those after the compaction
point) are still appended, so the token count rises from 2 to 26. -/
theorem build_context_compaction_cex :
    count_tokens (build_context_messages c1_session) = 2 ∧
    count_tokens (build_context_messages (compact_with_summaries c1_session)) = 26 ∧
    ¬ (count_tokens (build_context_messages (compact_with_summaries c1_session)) ≤
        count_tokens (build_context_messages c1_session)) := by
  refine ⟨rfl, rfl, fun hle => ?_⟩
  rw [show count_tokens (build_context_messages
        (compact_with_summaries c1_session)) = 26 from rfl,
    show count_tokens (build_context_messages c1_session) = 2 from rfl] at hle
  omega

theorem charTotal_append (a b : List Msg) :
    charTotal (a ++ b) = charTotal a + charTotal b := by
  induction a with
  | nil => simp [charTotal]
  | cons m rest ih =>
    show msgChars m + charTotal (rest ++ b) =
      msgChars m + charTotal rest + charTotal b
    rw [ih]
    omega

/-- Claim C1 (amended): after a summaries-strategy compaction,
`build_context_messages` returns the synthetic summary pair followed by ALL
of the session's messages (the compaction point plays no role), so its token
count is at least — not at most — the pre-compaction count. -/
theorem build_context_after_compaction (s : SessionState)
    (h : s.compacted_summary = none) :
    count_tokens (build_context_messages s) ≤
      count_tokens (build_context_messages (compact_with_summaries s)) ∧
    (∃ pre, build_context_messages (compact_with_summaries s) =
        pre ++ (get_session_messages s).map sessionToMsg) ∧
    build_context_messages s = (get_session_messages s).map sessionToMsg := by
  have hbase : build_context_messages s =
      (get_session_messages s).map sessionToMsg := by
    simp [build_context_messages, h]
  refine ⟨?_, ⟨_, rfl⟩, hbase⟩
  rw [hbase]
  show charTotal _ / 4 ≤ charTotal _ / 4
  rw [build_context_messages]
  rw [charTotal_append]
  have : get_session_messages (compact_with_summaries s) =
      get_session_messages s := rfl
  rw [this]
  exact Nat.div_le_div_right (Nat.le_add_left _ _)

/-- Witness for C1 (amended) at the concrete one-message session. -/
theorem build_context_after_compaction_witness :
    c1_session.compacted_summary = none ∧
    count_tokens (build_context_messages c1_session) ≤
      count_tokens (build_context_messages (compact_with_summaries c1_session)) := by
  exact ⟨rfl, (build_context_after_compaction c1_session rfl).1⟩

/-! ## C9: tool-call extraction and the textual fallback -/

/-- Counterexample to claim C9: the content holds TWO textual-fallback
matches (`to=functions.a` and `to=functions.b`), yet `extract_calls` still
synthesises one call — from the FIRST matched name and the greedy
first-brace-to-last-brace blob — instead of extracting no calls. -/
theorem extract_calls_two_matches_cex :
    count_textual_matches c9_msg.content.toList = 2 ∧
    extract_calls c9_msg 3 =
      [⟨"textual_call_3", ⟨"a", "\x7b\"y\":1\x7d"⟩⟩] := by
  exact ⟨rfl, rfl⟩

/-- Claim C9 (amended): `extract_calls` prefers a nonempty structured
`tool_calls` field; when that field is absent or empty, the textual fallback
applies to the content: the first `to=functions.<name>` occurrence names the
tool, the argument blob spans the first opening brace through the last
closing brace, and if that blob parses as JSON exactly one call with id
`textual_call_<turn>` is synthesised (even when several textual matches are
present); otherwise no calls are extracted. -/
theorem extract_calls_amended :
    (∀ (msg : Msg) (turn : Nat) (c : ToolCall) (cs : List ToolCall),
      msg.tool_calls = some (c :: cs) → extract_calls msg turn = c :: cs) ∧
    (∀ (msg : Msg) (turn : Nat),
      (msg.tool_calls = none ∨ msg.tool_calls = some []) →
      (∀ fn, parse_textual_tool_call msg.content = some fn →
        extract_calls msg turn = [⟨"textual_call_" ++ toString turn, fn⟩]) ∧
      (parse_textual_tool_call msg.content = none →
        extract_calls msg turn = [])) ∧
    (∀ (text : String) (fn : ToolCallFn),
      parse_textual_tool_call text = some fn →
      (Json.parse fn.arguments).isSome = true ∧
      braceBlob text = some fn.arguments ∧
      findFunctionsName text.toList = some fn.name) := by
  refine ⟨?_, ?_, ?_⟩
  · intro msg turn c cs h
    simp [extract_calls, h]
  · intro msg turn h
    rcases h with h | h <;>
      exact ⟨fun fn hfn => by simp [extract_calls, h, hfn],
        fun hnone => by simp [extract_calls, h, hnone]⟩
  · intro text fn h
    rw [parse_textual_tool_call] at h
    by_cases ht : text = ""
    · simp [ht] at h
    · rw [if_neg ht] at h
      rcases hname : findFunctionsName text.toList with - | name
      · rw [hname] at h; exact absurd h (by simp)
      · rw [hname] at h
        rcases hblob : braceBlob text with - | blob
        · rw [hblob] at h; exact absurd h (by simp)
        · rw [hblob] at h
          dsimp only at h
          by_cases hj : (Json.parse blob).isSome
          · rw [if_pos hj] at h
            rcases Option.some.inj h with rfl
            exact ⟨hj, rfl, rfl⟩
          · rw [if_neg hj] at h
            exact absurd h (by simp)

/-- Witness for C9 (amended) at the spec's textual-fallback example. -/
theorem extract_calls_amended_witness :
    (({ role := "assistant",
        content := "call to=functions.web_search \x7b\"q\":\"x\"\x7d" } :
          Msg).tool_calls = none) ∧
    parse_textual_tool_call
        "call to=functions.web_search \x7b\"q\":\"x\"\x7d" =
      some ⟨"web_search", "\x7b\"q\":\"x\"\x7d"⟩ ∧
    extract_calls
        { role := "assistant",
          content := "call to=functions.web_search \x7b\"q\":\"x\"\x7d" } 1 =
      [⟨"textual_call_1", ⟨"web_search", "\x7b\"q\":\"x\"\x7d"⟩⟩] := by
  refine ⟨rfl, rfl, ?_⟩
  exact ((extract_calls_amended.2.1
    { role := "assistant",
      content := "call to=functions.web_search \x7b\"q\":\"x\"\x7d" } 1
    (Or.inl rfl)).1 ⟨"web_search", "\x7b\"q\":\"x\"\x7d"⟩ rfl)

/-! ## C2: `get_full_content` on a cache miss ignores source adapters -/

/-- Claim C2 evaluated on the code (the claim itself is what the tests
expect; the code disagrees): on a cache miss `execute_get_full_content`
returns the not-cached error for the URL — its result is a function of the
cache alone, no configured source adapter is ever consulted, and no adapter
tool is invoked. The adapter layer itself (which `execute_get_full_content`
never calls) would resolve the spec's example target to the `local_read`
tool with `{target, max_links: 50, operation: "read"}`. -/
theorem get_full_content_cache_miss (cache : String → Option CachedRow)
    (url : String) (h1 : url ≠ "") (h2 : cache (sanitize_url url) = none) :
    execute_get_full_content cache [url] =
      .ok [(sanitize_url url,
        .failure "Not cached. Use extract_links first to cache this URL.")] ∧
    adapter_invocation [⟨"local", "local://", "local_read", "local_read"⟩]
        "local://doc-1" none none "read" =
      some ("local_read", ⟨"local://doc-1", 50, "read", none⟩) := by
  constructor
  · have hfilter : ([url].filter (fun u => u ≠ "")) = [url] := by
      simp [List.filter, h1]
    rw [execute_get_full_content, hfilter]
    have hded : ([sanitize_url url] : List String).dedup = [sanitize_url url] := by
      simp
    simp only [List.map, hded]
    rw [if_neg (by simp)]
    simp [gfc_row, h2]
  · rfl

/-- Witness for C2 at the spec's source-adapter scenario input. -/
theorem get_full_content_cache_miss_witness :
    (("local://doc-1" : String) ≠ "") ∧
    ((fun _ => (none : Option CachedRow)) (sanitize_url "local://doc-1") =
      none) ∧
    execute_get_full_content (fun _ => none) ["local://doc-1"] =
      .ok [(sanitize_url "local://doc-1",
        .failure "Not cached. Use extract_links first to cache this URL.")] := by
  refine ⟨by decide, rfl, ?_⟩
  exact (get_full_content_cache_miss (fun _ => none) "local://doc-1"
    (by decide) rfl).1

/-! ## C10: `_env` suffix handling in push-data -/

theorem resolve_headers_env_mem (env : String → Option String) :
    ∀ (hc hs : List (String × String)), resolve_headers env hc = .ok hs →
      ∀ k v, (k, v) ∈ hc → strEndsWith k "_env" = true →
        ∃ x, env v = some x ∧ (k.dropRight 4, x) ∈ hs := by
  intro hc
  induction hc with
  | nil => intro hs _ k v hmem; simp at hmem
  | cons kv rest ih =>
    intro hs hok k v hmem hsuf
    rcases kv with ⟨key, value⟩
    rw [resolve_headers] at hok
    by_cases hks : strEndsWith key "_env" = true
    · rw [if_pos hks] at hok
      rcases henv : env value with - | x
      · rw [henv] at hok; exact absurd hok (by simp)
      · rw [henv] at hok
        rcases hrest : resolve_headers env rest with e | hs2
        · rw [hrest] at hok; exact absurd hok (by simp)
        · rw [hrest] at hok
          dsimp only at hok
          rcases Except.ok.inj hok with rfl
          rcases List.mem_cons.mp hmem with heq | hmem2
          · rcases Prod.mk.injEq .. ▸ heq with ⟨rfl, rfl⟩
            exact ⟨x, henv, by simp⟩
          · rcases ih hs2 hrest k v hmem2 hsuf with ⟨x2, hx2, hmemout⟩
            exact ⟨x2, hx2, by simp [hmemout]⟩
    · rw [if_neg hks] at hok
      rcases hrest : resolve_headers env rest with e | hs2
      · rw [hrest] at hok; exact absurd hok (by simp)
      · rw [hrest] at hok
        dsimp only at hok
        rcases Except.ok.inj hok with rfl
        rcases List.mem_cons.mp hmem with heq | hmem2
        · rcases Prod.mk.injEq .. ▸ heq with ⟨rfl, rfl⟩
          exact absurd hsuf hks
        · rcases ih hs2 hrest k v hmem2 hsuf with ⟨x2, hx2, hmemout⟩
          exact ⟨x2, hx2, by simp [hmemout]⟩

theorem build_payload_env_mem (env : String → Option String)
    (da sv : List (String × String)) :
    ∀ (fc p : List (String × String)), build_payload env da sv fc = .ok p →
      ∀ k v, (k, v) ∈ fc → strEndsWith k "_env" = true →
        ∃ x, env v = some x ∧ (k, x) ∈ p := by
  intro fc
  induction fc with
  | nil => intro p _ k v hmem; simp at hmem
  | cons kv rest ih =>
    intro p hok k v hmem hsuf
    rcases kv with ⟨key, value⟩
    rw [build_payload] at hok
    rcases hres : resolve_field_value env da sv key value with e | rv
    · rw [hres] at hok; exact absurd hok (by simp)
    · rw [hres] at hok
      rcases hrest : build_payload env da sv rest with e | p2
      · rw [hrest] at hok; exact absurd hok (by simp)
      · rw [hrest] at hok
        dsimp only at hok
        rcases Except.ok.inj hok with rfl
        rcases List.mem_cons.mp hmem with heq | hmem2
        · rcases Prod.mk.injEq .. ▸ heq with ⟨rfl, rfl⟩
          rw [resolve_field_value, if_pos hsuf] at hres
          rcases henv : env v with - | x
          · rw [henv] at hres; exact absurd hres (by simp)
          · rw [henv] at hres
            dsimp only at hres
            rcases Except.ok.inj hres with rfl
            exact ⟨x, rfl, by simp⟩
        · rcases ih p2 hrest k v hmem2 hsuf with ⟨x2, hx2, hmemout⟩
          exact ⟨x2, hx2, by simp [hmemout]⟩

theorem resolve_headers_env_missing (env : String → Option String) :
    ∀ (hc : List (String × String)) (k v : String), (k, v) ∈ hc →
      strEndsWith k "_env" = true → env v = none →
      ∀ hs, resolve_headers env hc ≠ .ok hs := by
  intro hc k v hmem hsuf henv hs hok
  rcases resolve_headers_env_mem env hc hs hok k v hmem hsuf with ⟨x, hx, -⟩
  rw [henv] at hx
  exact Option.noConfusion hx

theorem build_payload_env_missing (env : String → Option String)
    (da sv : List (String × String)) :
    ∀ (fc : List (String × String)) (k v : String), (k, v) ∈ fc →
      strEndsWith k "_env" = true → env v = none →
      ∀ p, build_payload env da sv fc ≠ .ok p := by
  intro fc k v hmem hsuf henv p hok
  rcases build_payload_env_mem env da sv fc p hok k v hmem hsuf with ⟨x, hx, -⟩
  rw [henv] at hx
  exact Option.noConfusion hx

/-- Claim C10: for every configuration key ending in `_env` naming an
existing environment variable, `_resolve_headers` emits the header under the
key with the `_env` suffix STRIPPED while `_build_payload` emits the field
under the key with the suffix RETAINED — both carrying the environment
variable's value; and when the environment variable is missing,
`execute_push_data` returns a `success: false` error outcome without
sending any request. -/
theorem push_data_env_suffix :
    (∀ (env : String → Option String) (hc hs : List (String × String)),
      resolve_headers env hc = .ok hs →
      ∀ k v, (k, v) ∈ hc → strEndsWith k "_env" = true →
        ∃ x, env v = some x ∧ (k.dropRight 4, x) ∈ hs) ∧
    (∀ (env : String → Option String) (da sv fc p : List (String × String)),
      build_payload env da sv fc = .ok p →
      ∀ k v, (k, v) ∈ fc → strEndsWith k "_env" = true →
        ∃ x, env v = some x ∧ (k, x) ∈ p) ∧
    (∀ (env : String → Option String)
      (da sv hc fc : List (String × String)) (k v : String),
      ((k, v) ∈ hc ∨ (k, v) ∈ fc) → strEndsWith k "_env" = true →
      env v = none →
      ∃ e, execute_push_data env da sv hc fc = .failed e) := by
  refine ⟨resolve_headers_env_mem, fun env da sv => build_payload_env_mem env da sv, ?_⟩
  intro env da sv hc fc k v hmem hsuf henv
  rw [execute_push_data]
  rcases hh : resolve_headers env hc with e | hs
  · exact ⟨e, rfl⟩
  · rcases hmem with hmem | hmem
    · exact absurd hh (resolve_headers_env_missing env hc k v hmem hsuf henv hs)
    · rcases hp : build_payload env da sv fc with e | p
      · exact ⟨e, rfl⟩
      · exact absurd hp
          (build_payload_env_missing env da sv fc k v hmem hsuf henv p)

/-- Witness for C10 at a concrete endpoint configuration: the header key
loses the suffix, the payload key keeps it, both carry the variable's value,
and a missing variable fails the push before any request. -/
theorem push_data_env_suffix_witness :
    resolve_headers (fun s => if s = "API_KEY" then some "k1" else none)
        [("authorization_env", "API_KEY")] = .ok [("authorization", "k1")] ∧
    (∃ x, (fun s => if s = "API_KEY" then some "k1" else none) "API_KEY" =
        some x ∧
      (("authorization_env" : String).dropRight 4, x) ∈
        [(("authorization" : String), ("k1" : String))]) ∧
    build_payload (fun s => if s = "API_KEY" then some "k1" else none) [] []
        [("token_env", "API_KEY")] = .ok [("token_env", "k1")] ∧
    (∃ e, execute_push_data (fun _ => none) [] []
        [("authorization_env", "API_KEY")] [] = .failed e) := by
  refine ⟨rfl, ?_, rfl, ?_⟩
  · exact push_data_env_suffix.1
      (fun s => if s = "API_KEY" then some "k1" else none)
      [("authorization_env", "API_KEY")] [("authorization", "k1")] rfl
      "authorization_env" "API_KEY" (by simp) rfl
  · exact push_data_env_suffix.2.2 (fun _ => none) [] []
      [("authorization_env", "API_KEY")] [] "authorization_env" "API_KEY"
      (Or.inl (by simp)) rfl rfl

/-! ## C6: the system prompt and its status suffix -/

theorem engine_loop_status (oracle : Nat → Msg)
    (dispatchResult : Nat → ToolCall → String) (max_turns context_size : Nat) :
    ∀ (fuel turn : Nat) (orig : String) (msgs : List Msg) (e : TraceEntry),
      e ∈ (engine_loop oracle dispatchResult max_turns context_size
        fuel turn orig msgs).1 →
      ∀ m rest, e.msgs = m :: rest → m.role = "system" →
      m.content = orig ++
        status_msg e.tokens context_size (max_turns - e.turn + 1) max_turns := by
  intro fuel
  induction fuel with
  | zero => intro turn orig msgs e he; simp [engine_loop] at he
  | succ fuel ih =>
    intro turn orig msgs e he m rest hm hrole
    rw [engine_loop] at he
    by_cases hcalls : extract_calls (oracle turn) turn = []
    · rw [if_pos hcalls] at he
      rcases List.mem_singleton.mp he with rfl
      dsimp only at hm ⊢
      rcases msgs with - | ⟨m0, rest0⟩
      · simp [update_system] at hm
      · rw [update_system] at hm
        by_cases hr0 : m0.role = "system"
        · rw [if_pos hr0] at hm
          rcases List.cons.inj hm with ⟨rfl, rfl⟩
          rfl
        · rw [if_neg hr0] at hm
          rcases List.cons.inj hm with ⟨rfl, rfl⟩
          exact absurd hrole hr0
    · rw [if_neg hcalls] at he
      rcases List.mem_cons.mp he with rfl | he2
      · dsimp only at hm ⊢
        rcases msgs with - | ⟨m0, rest0⟩
        · simp [update_system] at hm
        · rw [update_system] at hm
          by_cases hr0 : m0.role = "system"
          · rw [if_pos hr0] at hm
            rcases List.cons.inj hm with ⟨rfl, rfl⟩
            rfl
          · rw [if_neg hr0] at hm
            rcases List.cons.inj hm with ⟨rfl, rfl⟩
            exact absurd hrole hr0
      · exact ih (turn + 1) orig _ e he2 m rest hm hrole

/-- Claim C6: on every executed turn whose first message is a system
message, that message's content is exactly the original system prompt
(captured once before the loop) followed by ONE freshly computed status
suffix for that turn — suffixes never accumulate and the original prompt is
recoverable by stripping the trailing suffix. -/
theorem engine_run_status_suffix (oracle : Nat → Msg)
    (dispatchResult : Nat → ToolCall → String)
    (max_turns context_size : Nat) (init : List Msg) (e : TraceEntry)
    (he : e ∈ (engine_run oracle dispatchResult max_turns context_size
      init).1)
    (m : Msg) (rest : List Msg) (hm : e.msgs = m :: rest)
    (hrole : m.role = "system") :
    m.content = original_system_prompt init ++
      status_msg e.tokens context_size (max_turns - e.turn + 1) max_turns := by
  exact engine_loop_status oracle dispatchResult max_turns context_size
    max_turns 1 (original_system_prompt init) init e he m rest hm hrole

/-! ## C7: every tool call is answered in order -/

theorem tool_answers_append (tcs : List ToolCall) :
    ∀ (rest b : List Msg), tool_answers tcs rest = true →
      tool_answers tcs (rest ++ b) = true ∧ tcs.length ≤ rest.length := by
  induction tcs with
  | nil => intro rest b _; exact ⟨rfl, Nat.zero_le _⟩
  | cons c cs ih =>
    intro rest b h
    rcases rest with - | ⟨m, rest⟩
    · exact absurd h (by simp [tool_answers])
    · rw [tool_answers] at h
      rcases Bool.and_eq_true_iff.mp h with ⟨hm, hrest⟩
      rcases ih rest b hrest with ⟨h1, h2⟩
      refine ⟨?_, by simpa using Nat.succ_le_succ h2⟩
      show tool_answers (c :: cs) (m :: (rest ++ b)) = true
      rw [tool_answers, hm, h1]
      rfl

theorem wf_transcript_no_calls :
    ∀ ms : List Msg, (∀ m ∈ ms, m.tool_calls = none) →
      wf_transcript ms = true := by
  intro ms
  induction ms with
  | nil => intro _; rw [wf_transcript]
  | cons m rest ih =>
    intro h
    rw [wf_transcript, h m (by simp)]
    exact ih (fun x hx => h x (by simp [hx]))

theorem wf_transcript_append :
    ∀ (n : Nat) (ms b : List Msg), ms.length ≤ n →
      wf_transcript ms = true → wf_transcript b = true →
      wf_transcript (ms ++ b) = true := by
  intro n
  induction n with
  | zero =>
    intro ms b hlen hms hb
    have hnil : ms = [] := List.length_eq_zero.mp (Nat.le_zero.mp hlen)
    subst hnil
    simpa using hb
  | succ n ih =>
    intro ms b hlen hms hb
    rcases ms with - | ⟨m, rest⟩
    · simpa using hb
    · have hlen' : rest.length ≤ n := by
        simp only [List.length_cons] at hlen
        omega
      rw [List.cons_append]
      rw [wf_transcript] at hms ⊢
      rcases htc : m.tool_calls with - | tcs
      · rw [htc] at hms
        dsimp only at hms ⊢
        exact ih rest b hlen' hms hb
      · rw [htc] at hms
        dsimp only at hms ⊢
        rcases Bool.and_eq_true_iff.mp hms with ⟨hta, hwf⟩
        rcases tool_answers_append tcs rest b hta with ⟨hta2, hle⟩
        rw [hta2]
        have hdrop : (rest ++ b).drop tcs.length = rest.drop tcs.length ++ b := by
          rw [List.drop_append_eq_append_drop, Nat.sub_eq_zero_of_le hle,
            List.drop_zero]
        rw [hdrop]
        have hlen2 : (rest.drop tcs.length).length ≤ n := by
          rw [List.length_drop]
          omega
        rw [ih (rest.drop tcs.length) b hlen2 hwf hb]
        rfl

theorem tool_answers_map (f : ToolCall → String) :
    ∀ calls : List ToolCall,
      tool_answers calls
        (calls.map (fun c => tool_result_msg c (f c))) = true := by
  intro calls
  induction calls with
  | nil => rfl
  | cons c cs ih =>
    show tool_answers (c :: cs)
      (tool_result_msg c (f c) :: cs.map (fun c => tool_result_msg c (f c))) = true
    rw [tool_answers, ih]
    simp [tool_result_msg]

theorem wf_transcript_block (resp : Msg) (turn : Nat) (f : ToolCall → String) :
    wf_transcript (resp ::
      (extract_calls resp turn).map (fun c => tool_result_msg c (f c))) = true := by
  have hmsgs : ∀ calls : List ToolCall,
      ∀ m ∈ (calls.map (fun c => tool_result_msg c (f c))), m.tool_calls = none := by
    intro calls m hm
    rcases List.mem_map.mp hm with ⟨c, -, rfl⟩
    rfl
  rw [wf_transcript]
  rcases htc : resp.tool_calls with - | tcs
  · dsimp only
    exact wf_transcript_no_calls _ (hmsgs _)
  · rcases tcs with - | ⟨c, cs⟩
    · dsimp only
      rw [show tool_answers [] _ = true from rfl]
      simpa using wf_transcript_no_calls _ (hmsgs _)
    · dsimp only
      rw [show extract_calls resp turn = c :: cs from by
        rw [extract_calls, htc]]
      rw [tool_answers_map f (c :: cs)]
      have hnil : ((c :: cs).map (fun c => tool_result_msg c (f c))).drop
          (c :: cs).length = [] := by
        simp
      rw [hnil, show wf_transcript [] = true from by rw [wf_transcript]]
      rfl

theorem wf_transcript_update_system (orig suffix : String) (ms : List Msg) :
    wf_transcript (update_system orig suffix ms) = wf_transcript ms := by
  rcases ms with - | ⟨m, rest⟩
  · rfl
  · rw [update_system]
    by_cases hr : m.role = "system"
    · rw [if_pos hr]
      rw [wf_transcript, wf_transcript]
    · rw [if_neg hr]

theorem engine_loop_wf (oracle : Nat → Msg)
    (dispatchResult : Nat → ToolCall → String) (max_turns context_size : Nat) :
    ∀ (fuel turn : Nat) (orig : String) (msgs : List Msg),
      wf_transcript msgs = true →
      wf_transcript (engine_loop oracle dispatchResult max_turns context_size
        fuel turn orig msgs).2 = true := by
  intro fuel
  induction fuel with
  | zero => intro turn orig msgs h; exact h
  | succ fuel ih =>
    intro turn orig msgs h
    rw [engine_loop]
    by_cases hcalls : extract_calls (oracle turn) turn = []
    · rw [if_pos hcalls]
      dsimp only
      rw [wf_transcript_update_system]
      exact h
    · rw [if_neg hcalls]
      dsimp only
      apply ih
      apply wf_transcript_append (update_system orig
        (status_msg (count_tokens msgs) context_size
          (max_turns - turn + 1) max_turns) msgs).length
      · exact Nat.le_refl _
      · rw [wf_transcript_update_system]; exact h
      · exact wf_transcript_block (oracle turn) turn (dispatchResult turn)

/-- Claim C7: in every transcript produced by `ConversationEngine.run` from
an initial message list without `tool_calls`, each message carrying a
structured `tool_calls` list of length k is immediately followed by exactly
k messages of role `tool` whose `tool_call_id`s match the k calls' ids in
the same order, before any later assistant turn. -/
theorem engine_run_tool_answers (oracle : Nat → Msg)
    (dispatchResult : Nat → ToolCall → String)
    (max_turns context_size : Nat) (init : List Msg)
    (h : ∀ m ∈ init, m.tool_calls = none) :
    wf_transcript (engine_run oracle dispatchResult max_turns context_size
      init).2 = true := by
  exact engine_loop_wf oracle dispatchResult max_turns context_size
    max_turns 1 (original_system_prompt init) init
    (wf_transcript_no_calls init h)

set_option maxRecDepth 8000 in
/-- Witness for C6 at the concrete run: the first executed turn's snapshot
carries the system message `"S"` plus exactly one turn-1 status suffix. -/
theorem engine_run_status_suffix_witness :
    ((⟨1, 0,
      [{ role := "system", content := "S" ++ status_msg 0 1000 5 5 },
       { role := "user", content := "hi" }]⟩ : TraceEntry) ∈
        (engine_run w_oracle w_dr 5 1000 w_init).1) ∧
    ({ role := "system", content := "S" ++ status_msg 0 1000 5 5 } :
        Msg).content =
      original_system_prompt w_init ++ status_msg 0 1000 (5 - 1 + 1) 5 := by
  refine ⟨by decide, ?_⟩
  exact engine_run_status_suffix w_oracle w_dr 5 1000 w_init
    ⟨1, 0,
      [{ role := "system", content := "S" ++ status_msg 0 1000 5 5 },
       { role := "user", content := "hi" }]⟩ (by decide)
    { role := "system", content := "S" ++ status_msg 0 1000 5 5 }
    [{ role := "user", content := "hi" }] rfl rfl

/-- Witness for C7 at the concrete run: the produced transcript satisfies
the answered-in-order invariant. -/
theorem engine_run_tool_answers_witness :
    (∀ m ∈ w_init, m.tool_calls = none) ∧
    wf_transcript (engine_run w_oracle w_dr 5 1000 w_init).2 = true :=
  ⟨by decide, engine_run_tool_answers w_oracle w_dr 5 1000 w_init (by decide)⟩
